import Mathlib

/-!
Verification development for the line-reminder-bot repository.

The repository contains several near-duplicate variants of a reply-tracking
bot.  Each variant keeps an in-memory JavaScript object mapping a user id to a
conversation record, mutated by LINE webhook events, HTTP endpoints and two
cron sweeps.  We embed the relevant variants shallowly:

* a JS object is an insertion-ordered association list `List (String × α)`
  (assignment to an existing key keeps its position, a new key is appended);
* JS millisecond timestamps (`Date.now()`, `event.timestamp`) are `Int`;
* a JS falsy check on a numeric field (`!c.lastReminderTime`) is a test
  against `0`, matching the code which initialises the field to `0`;
* a fallible external call (`client.replyMessage`, `axios.post`) is a `Bool`
  (or oracle `String → Bool`) input saying whether the call succeeded; the
  freshly generated ids/tokens (`crypto.randomBytes`) are `String` inputs.

Variant naming: suffix `0` = src/unnamed/part_000, `4` = part_004,
`5` = part_005, `6` = part_006, `A` = src/app.js.
-/

namespace LineReminderBot

/-- 3 hours in milliseconds (`3 * 60 * 60 * 1000` in part_004/part_005). -/
def threeHoursMs : Int := 10800000

/-- 24 hours in milliseconds (`24 * 60 * 60 * 1000` in the cleanup sweeps). -/
def oneDayMs : Int := 86400000

/-- 1 minute in milliseconds (`1 * 60 * 1000` in the app.js/part_006 sweeps). -/
def oneMinuteMs : Int := 60000

/-- Snapshot of one message: `{ text, timestamp, id }` in the JS records. -/
structure MsgSnap where
  text : String
  timestamp : Int
  id : String
deriving DecidableEq

/-- Lookup in a JS object modelled as an association list (`obj[key]`). -/
def getConv {α : Type} : List (String × α) → String → Option α
  | [], _ => none
  | p :: rest, uid => if p.1 = uid then some p.2 else getConv rest uid

/-- Assignment `obj[key] = value`: replace in place, or append a new key. -/
def setConv {α : Type} : List (String × α) → String → α → List (String × α)
  | [], uid, c => [(uid, c)]
  | p :: rest, uid, c => if p.1 = uid then (uid, c) :: rest else p :: setConv rest uid c

/-- The store has no duplicate keys (true of every store built by the code). -/
abbrev keysNodup {α : Type} (s : List (String × α)) : Prop :=
  (s.map Prod.fst).Nodup

/-- A normalized LINE webhook text-message event, as destructured at the top
of each variant's handler: `userId`, `text`, `messageId`, `timestamp`,
`isFromUser` (`!!event.replyToken`), `sourceType`, and the `displayName`
resolved by the profile lookup (whose failure already degrades to
`'Unknown User'` before the core logic runs). -/
structure LineEvent where
  userId : String
  text : String
  messageId : String
  timestamp : Int
  isFromUser : Bool
  sourceType : String
  displayName : String
deriving DecidableEq

/-! ### part_000: conversation record and reply recording -/

/-- part_000 record: `{ userMessage, botReply, needsReply, displayName,
sourceType }`.  `userMessage` is set at creation and never nulled, so it is
embedded as a plain field. -/
structure Conv0 where
  userMessage : MsgSnap
  botReply : Option MsgSnap
  needsReply : Bool
  displayName : String
  sourceType : String
deriving DecidableEq

abbrev Store0 := List (String × Conv0)

/-- part_000 `sendReplyAndRecord`: try to reply via the platform; on success
record `botReply` and clear `needsReply` (when the record exists) and return
`true`; if the platform call throws, the whole update block is skipped and
`false` is returned.  `sendOk` is whether `client.replyMessage` succeeded and
`botId` the message id it returned. -/
def sendReplyAndRecord0 (uid messageText : String) (sendOk : Bool) (now : Int)
    (botId : String) (s : Store0) : Store0 × Bool :=
  if sendOk then
    (match getConv s uid with
     | some c => setConv s uid
        { c with botReply := some ⟨messageText, now, botId⟩, needsReply := false }
     | none => s,
     true)
  else (s, false)

/-- part_000 status text for the `ステータス` command (the locale-formatted
date is abstracted to `toString` of the millisecond timestamp). -/
def statusMessage0 (uid : String) (s : Store0) : String :=
  match getConv s uid with
  | some c =>
    if c.needsReply then
      "現在、あなたの未返信メッセージがあります。\n\n最後のメッセージ: \"" ++
        c.userMessage.text ++ "\"\n時間: " ++ toString c.userMessage.timestamp
    else
      match c.botReply with
      | some b => "現在、あなたへの未返信メッセージはありません。" ++
          "\n\n最後の返信: \"" ++ b.text ++ "\"\n時間: " ++ toString b.timestamp
      | none => "現在、あなたへの未返信メッセージはありません。"
  | none => "現在、あなたへの未返信メッセージはありません。"

/-- part_000 `ステータス` command branch of `handleEvent`: builds the status
text and sends it through `sendReplyAndRecord`. -/
def handleStatus0 (uid : String) (sendOk : Bool) (now : Int) (botId : String)
    (s : Store0) : Store0 × Bool :=
  sendReplyAndRecord0 uid (statusMessage0 uid s) sendOk now botId s

/-! ### part_004: records, transition engine, sweeps -/

/-- part_004 record: `{ userMessage, botReply, needsReply, displayName,
sourceType, lastReminderTime, reminderCount }`.  An unset reminder time is
the number `0`, exactly as initialised by the code. -/
structure Conv4 where
  userMessage : Option MsgSnap
  botReply : Option MsgSnap
  needsReply : Bool
  displayName : String
  sourceType : String
  lastReminderTime : Int
  reminderCount : Nat
deriving DecidableEq

abbrev Store4 := List (String × Conv4)

/-- One element of the `unreplied` array built by the part_004/part_005
reminder sweeps. -/
structure Entry where
  userId : String
  displayName : String
  text : String
  timestamp : Int
  timeSinceMessage : Int
  reminderCount : Nat
deriving DecidableEq

/-- The due test shared verbatim by the part_004 and part_005 sweeps:
`(timeSinceMessage >= threeHoursMs && !c.lastReminderTime) ||
 (c.lastReminderTime && timeSinceLastReminder >= threeHoursMs)`.
`!c.lastReminderTime` is the JS falsy test, i.e. equality with `0`, and
`timeSinceLastReminder = now - (c.lastReminderTime || 0)` equals
`now - c.lastReminderTime` under the truthiness guard. -/
def reminderDue (now msgTs lastReminderTime : Int) : Bool :=
  (decide (now - msgTs ≥ threeHoursMs) && decide (lastReminderTime = 0)) ||
  (decide (lastReminderTime ≠ 0) && decide (now - lastReminderTime ≥ threeHoursMs))

/-- part_004 sweep, per-record selection: needs a reply, has a user message,
is not a group/room, and is due; on success produce the reminder entry with
`reminderCount` already incremented (`(c.reminderCount || 0) + 1`). -/
def entryFor4 (now : Int) (uid : String) (c : Conv4) : Option Entry :=
  if c.needsReply then
    match c.userMessage with
    | some m =>
      if c.sourceType ≠ "group" ∧ c.sourceType ≠ "room" then
        if reminderDue now m.timestamp c.lastReminderTime then
          some ⟨uid, c.displayName, m.text, m.timestamp, now - m.timestamp,
            c.reminderCount + 1⟩
        else none
      else none
    | none => none
  else none

/-- The `unreplied` array of one part_004 sweep pass. -/
def collectDue4 (now : Int) (s : Store4) : List Entry :=
  s.filterMap (fun p => entryFor4 now p.1 p.2)

/-- Second phase of the part_004 sweep: for each entry (notification has no
store effect in part_004) set `lastReminderTime = now` and
`reminderCount = entry.reminderCount` if the record still exists. -/
def sweepApply4 (now : Int) : List Entry → Store4 → Store4
  | [], s => s
  | e :: rest, s =>
    let s1 := match getConv s e.userId with
      | some c => setConv s e.userId
          { c with lastReminderTime := now, reminderCount := e.reminderCount }
      | none => s
    sweepApply4 now rest s1

/-- One part_004 reminder sweep pass over the store. -/
def sweep4 (now : Int) (s : Store4) : Store4 :=
  sweepApply4 now (collectDue4 now s) s

/-- part_004 cleanup predicate:
`!c.needsReply && c.userMessage && (now - c.userMessage.timestamp > oneDayMs)`. -/
def cleanupDelete4 (now : Int) (c : Conv4) : Bool :=
  (!c.needsReply) &&
    (match c.userMessage with
     | some m => decide (now - m.timestamp > oneDayMs)
     | none => false)

/-- part_004/part_005 cleanup sweep: delete every matching record. -/
def cleanup4 (now : Int) (s : Store4) : Store4 :=
  s.filter (fun p => !cleanupDelete4 now p.2)

/-- part_004 `replyAndRecord`: reply via the platform, and only if that did
not throw, record `botReply` with a locally generated id, clear `needsReply`
and reset the reminder bookkeeping (when the record exists).  A thrown send
is only logged; the store is untouched. -/
def replyAndRecord4 (uid replyText : String) (sendOk : Bool) (now : Int)
    (botId : String) (s : Store4) : Store4 :=
  if sendOk then
    match getConv s uid with
    | some c => setConv s uid
        { c with
          botReply := some ⟨replyText, now, botId⟩, needsReply := false,
          lastReminderTime := 0, reminderCount := 0 }
    | none => s
  else s

/-- part_004 `リセット` command body: set `needsReply = false` on every
record (reminder bookkeeping untouched). -/
def resetAll4 (s : Store4) : Store4 :=
  s.map (fun p => (p.1, { p.2 with needsReply := false }))

/-- part_004 `返信済み` command body: clear `needsReply` of the issuing
conversation when present. -/
def clearNeedsReply4 (uid : String) (s : Store4) : Store4 :=
  match getConv s uid with
  | some c => setConv s uid { c with needsReply := false }
  | none => s

/-- part_004 status text (locale date formatting abstracted to `toString`). -/
def statusMessage4 (uid : String) (s : Store4) : String :=
  let base :=
    match getConv s uid with
    | some c =>
      if c.needsReply then
        match c.userMessage with
        | some m => "未返信です。\n最後のメッセージ: \"" ++ m.text ++
            "\"\n時間: " ++ toString m.timestamp
        | none => "未返信です。"
      else "返信済みです。"
    | none => "返信済みです。"
  match getConv s uid with
  | some c =>
    match c.botReply with
    | some b => base ++ "\n最後の返信: \"" ++ b.text ++ "\"\n時間: " ++
        toString b.timestamp
    | none => base
  | none => base

/-- part_004 debug text (the log preview is abstracted away). -/
def debugMessage4 (s : Store4) : String :=
  "未返信ユーザー数: " ++ toString (s.filter (fun p => p.2.needsReply)).length

/-- part_004 normal-message branch: create the record or update it in place,
setting the new `userMessage`, `needsReply = true` and resetting
`lastReminderTime`/`reminderCount` (existing `displayName`/`sourceType` are
not refreshed by the code). -/
def userMessageUpdate4 (e : LineEvent) (s : Store4) : Store4 :=
  match getConv s e.userId with
  | none => setConv s e.userId
      ⟨some ⟨e.text, e.timestamp, e.messageId⟩, none, true, e.displayName,
        e.sourceType, 0, 0⟩
  | some c => setConv s e.userId
      { c with
        userMessage := some ⟨e.text, e.timestamp, e.messageId⟩,
        needsReply := true, lastReminderTime := 0, reminderCount := 0 }

/-- The commands that part_004 still processes from groups/rooms. -/
def groupCommands4 : List String :=
  ["ステータス", "status", "デバッグログ", "debuglog", "リセット",
   "返信済み", "全部返信済み", "すべて返信済み"]

/-- part_004 `handleLineEvent` for a text message (non-text events return
before reaching this logic).  `sendOk`/`now`/`botId` feed `replyAndRecord`
for the command branches. -/
def handleLineEvent4 (e : LineEvent) (sendOk : Bool) (now : Int)
    (botId : String) (s : Store4) : Store4 :=
  if (e.sourceType = "group" ∨ e.sourceType = "room") ∧ e.text ∉ groupCommands4 then s
  else if e.isFromUser then
    if e.text = "リセット" then
      replyAndRecord4 e.userId "全ての未返信状態をリセットしました。" sendOk now botId
        (resetAll4 s)
    else if e.text = "全部返信済み" ∨ e.text = "すべて返信済み" ∨ e.text = "返信済み" then
      replyAndRecord4 e.userId "未返信状態をクリアしました。" sendOk now botId
        (clearNeedsReply4 e.userId s)
    else if e.text = "ステータス" ∨ e.text = "status" then
      replyAndRecord4 e.userId (statusMessage4 e.userId s) sendOk now botId s
    else if e.text = "デバッグログ" ∨ e.text = "debuglog" then
      replyAndRecord4 e.userId (debugMessage4 s) sendOk now botId s
    else userMessageUpdate4 e s
  else s

/-- part_004 `POST /api/send-reply`: push a message; on success record it and
clear `needsReply` plus reminder bookkeeping when the record exists. -/
def apiSendReply4 (uid msg : String) (sendOk : Bool) (now : Int)
    (botId : String) (s : Store4) : Store4 :=
  if uid = "" ∨ msg = "" then s
  else if sendOk then
    match getConv s uid with
    | some c => setConv s uid
        { c with
          botReply := some ⟨msg, now, botId⟩, needsReply := false,
          lastReminderTime := 0, reminderCount := 0 }
    | none => s
  else s

/-- part_004 `POST /api/mark-as-replied`: clear `needsReply` and reminder
bookkeeping of an existing record; missing id or record mutates nothing. -/
def apiMarkAsReplied4 (uid : String) (s : Store4) : Store4 :=
  if uid = "" then s
  else match getConv s uid with
    | some c => setConv s uid
        { c with needsReply := false, lastReminderTime := 0, reminderCount := 0 }
    | none => s

/-- part_004 `GET /api/mark-as-replied-web` (no token in this variant):
same record effect as the API endpoint. -/
def webMarkAsReplied4 (uid : String) (s : Store4) : Store4 :=
  if uid = "" then s
  else match getConv s uid with
    | some c => setConv s uid
        { c with needsReply := false, lastReminderTime := 0, reminderCount := 0 }
    | none => s

/-- Every store-mutating operation of part_004, for reachability claims. -/
inductive Op4 where
  | lineEvent (e : LineEvent) (sendOk : Bool) (now : Int) (botId : String)
  | apiSendReply (uid msg : String) (sendOk : Bool) (now : Int) (botId : String)
  | apiMarkReplied (uid : String)
  | webMarkReplied (uid : String)
  | reminderSweep (now : Int)
  | cleanupSweep (now : Int)

def applyOp4 : Op4 → Store4 → Store4
  | .lineEvent e sendOk now botId, s => handleLineEvent4 e sendOk now botId s
  | .apiSendReply uid msg sendOk now botId, s => apiSendReply4 uid msg sendOk now botId s
  | .apiMarkReplied uid, s => apiMarkAsReplied4 uid s
  | .webMarkReplied uid, s => webMarkAsReplied4 uid s
  | .reminderSweep now, s => sweep4 now s
  | .cleanupSweep now, s => cleanup4 now s

def applyOps4 (ops : List Op4) (s : Store4) : Store4 :=
  ops.foldl (fun acc op => applyOp4 op acc) s

/-- Well-formed operation: sweep times are real `Date.now()` values, hence
positive. -/
def op4WF : Op4 → Bool
  | .reminderSweep now => decide (0 < now)
  | _ => true

/-- The part of the spec's bookkeeping invariant that the code maintains:
a positive `reminderCount` comes with a set (nonzero) `lastReminderTime`. -/
def storeInv4 (s : Store4) : Prop :=
  ∀ p ∈ s, 0 < p.2.reminderCount → p.2.lastReminderTime ≠ 0

/-! ### part_005: records with security tokens, sweep with notifications -/

/-- part_005 record: part_004's fields plus the `securityToken` gating the
web mark-as-replied flow. -/
structure Conv5 where
  userMessage : Option MsgSnap
  botReply : Option MsgSnap
  needsReply : Bool
  displayName : String
  sourceType : String
  lastReminderTime : Int
  reminderCount : Nat
  securityToken : String
deriving DecidableEq

abbrev Store5 := List (String × Conv5)

/-- part_005 sweep, per-record selection (same filter and due test as
part_004). -/
def entryFor5 (now : Int) (uid : String) (c : Conv5) : Option Entry :=
  if c.needsReply then
    match c.userMessage with
    | some m =>
      if c.sourceType ≠ "group" ∧ c.sourceType ≠ "room" then
        if reminderDue now m.timestamp c.lastReminderTime then
          some ⟨uid, c.displayName, m.text, m.timestamp, now - m.timestamp,
            c.reminderCount + 1⟩
        else none
      else none
    | none => none
  else none

/-- The `unreplied` array of one part_005 sweep pass. -/
def collectDue5 (now : Int) (s : Store5) : List Entry :=
  s.filterMap (fun p => entryFor5 now p.1 p.2)

/-- part_005 `createSlackMessage` store effect: reuse the record's
`securityToken` when set, otherwise generate (`ft`) and store a fresh one.
(On a missing record the source would throw; entries of a sweep always
exist.) -/
def tokenWriteBack5 (ft : String → String) (uid : String) (s : Store5) : Store5 :=
  match getConv s uid with
  | some c => setConv s uid
      { c with securityToken := if c.securityToken = "" then ft uid else c.securityToken }
  | none => s

/-- The sweep's post-notification bookkeeping for one entry:
`conversations[entry.userId].lastReminderTime = now;
 conversations[entry.userId].reminderCount = entry.reminderCount;`
guarded by the record still existing. -/
def reminderUpdate5 (now : Int) (e : Entry) (s : Store5) : Store5 :=
  match getConv s e.userId with
  | some c => setConv s e.userId
      { c with lastReminderTime := now, reminderCount := e.reminderCount }
  | none => s

/-- part_005 sweep, second phase.  For each entry, in order:
`sendSlackInteractiveNotification` builds the message (token write-back) and
posts it — a failed post (`notifyOk e.userId = false`) is caught and only
logged inside the helper — and then the sweep unconditionally performs the
reminder bookkeeping update.  Returns the final store and the list of
notification attempts with their outcomes. -/
def emitAndUpdate5 (now : Int) (notifyOk : String → Bool) (ft : String → String) :
    List Entry → Store5 → Store5 × List (String × Bool)
  | [], s => (s, [])
  | e :: rest, s =>
    let s2 := reminderUpdate5 now e (tokenWriteBack5 ft e.userId s)
    let r := emitAndUpdate5 now notifyOk ft rest s2
    (r.1, (e.userId, notifyOk e.userId) :: r.2)

/-- One part_005 reminder sweep pass. -/
def sweep5 (now : Int) (notifyOk : String → Bool) (ft : String → String)
    (s : Store5) : Store5 × List (String × Bool) :=
  emitAndUpdate5 now notifyOk ft (collectDue5 now s) s

/-- part_005 normal-message branch: set the new `userMessage`,
`needsReply = true`, reset reminder bookkeeping, and store the freshly
generated `securityToken`. -/
def userMessageUpdate5 (e : LineEvent) (freshToken : String) (s : Store5) : Store5 :=
  match getConv s e.userId with
  | none => setConv s e.userId
      ⟨some ⟨e.text, e.timestamp, e.messageId⟩, none, true, e.displayName,
        e.sourceType, 0, 0, freshToken⟩
  | some c => setConv s e.userId
      { c with
        userMessage := some ⟨e.text, e.timestamp, e.messageId⟩,
        needsReply := true, lastReminderTime := 0, reminderCount := 0,
        securityToken := freshToken }

/-- The commands part_005 still processes from groups/rooms. -/
def groupCommands5 : List String := ["ステータス", "status", "デバッグログ", "debuglog"]

/-- part_005 `handleLineEvent` for a text message.  The `ステータス` and
`デバッグログ` branches reply via `client.replyMessage` without recording
anything, so they leave the store unchanged. -/
def handleLineEvent5 (e : LineEvent) (freshToken : String) (s : Store5) : Store5 :=
  if (e.sourceType = "group" ∨ e.sourceType = "room") ∧ e.text ∉ groupCommands5 then s
  else if e.isFromUser ∧ (e.text = "ステータス" ∨ e.text = "status") then s
  else if e.isFromUser ∧ (e.text = "デバッグログ" ∨ e.text = "debuglog") then s
  else if e.isFromUser then userMessageUpdate5 e freshToken s
  else s

/-- Outcome of the part_005 web mark-as-replied endpoint. -/
inductive ConfirmResult where
  | missingParams
  | notFound
  | tokenMismatch
  | success
deriving DecidableEq

/-- part_005 `GET /api/mark-as-replied-web`: falsy-parameter guard, record
lookup, exact token comparison (`!==`), and only then the mutation clearing
`needsReply` and the reminder bookkeeping.  No platform message is sent on
any path. -/
def markAsRepliedWeb5 (uid token : String) (s : Store5) : Store5 × ConfirmResult :=
  if uid = "" ∨ token = "" then (s, .missingParams)
  else match getConv s uid with
    | none => (s, .notFound)
    | some c =>
      if c.securityToken ≠ token then (s, .tokenMismatch)
      else
        (setConv s uid { c with
          needsReply := false, lastReminderTime := 0,
          reminderCount := 0 }, .success)

/-- The due condition in the spec's words (§4.4 step 3), with an unset
`lastReminderAt` represented as `0`: due iff (`lastReminderAt` unset and
`now - receivedAt ≥ firstReminderDelay`) or (`lastReminderAt` set and
`now - lastReminderAt ≥ reminderInterval`). -/
def dueSpec (firstReminderDelay reminderInterval : Int) (now : Int) (c : Conv5) : Prop :=
  ∃ m, c.userMessage = some m ∧
    ((c.lastReminderTime = 0 ∧ now - m.timestamp ≥ firstReminderDelay) ∨
     (c.lastReminderTime ≠ 0 ∧ now - c.lastReminderTime ≥ reminderInterval))

/-! ### app.js: messageLog records, guarded sweep, cleanup -/

/-- app.js record: `{ messageText, timestamp, messageId, displayName,
sourceType, needsReply }` plus `repliedAt` added by `markAsReplied`. -/
structure ConvA where
  messageText : String
  timestamp : Int
  messageId : String
  displayName : String
  sourceType : String
  needsReply : Bool
  repliedAt : Option Int
deriving DecidableEq

abbrev StoreA := List (String × ConvA)

/-- app.js `markAsReplied`: succeeds only when the record exists and
`needsReply` is truthy; then clears `needsReply`, stamps `repliedAt`, and
returns `true`.  Any other case returns `false` without mutation. -/
def markAsRepliedA (uid : String) (now : Int) (s : StoreA) : StoreA × Bool :=
  match getConv s uid with
  | some c =>
    if c.needsReply then
      (setConv s uid { c with needsReply := false, repliedAt := some now }, true)
    else (s, false)
  | none => (s, false)

/-- The 404 body of app.js `POST /api/mark-as-replied`. -/
def notFoundMsgA (uid : String) : String :=
  "ユーザー " ++ uid ++ " の未返信メッセージは見つかりませんでした"

/-- app.js `POST /api/mark-as-replied`: missing id is a 400; a `true` result
is a 200; a `false` result is a 404 with the same body whether the record was
absent or already replied. -/
def apiMarkAsRepliedA (uid : String) (now : Int) (s : StoreA) : StoreA × Nat × String :=
  if uid = "" then (s, 400, "ユーザーIDが必要です")
  else
    let r := markAsRepliedA uid now s
    if r.2 then
      (r.1, 200, "ユーザー " ++ uid ++ " のメッセージを返信済みとしてマークしました")
    else (r.1, 404, notFoundMsgA uid)

/-- The user ids the app.js minute sweep includes in its aggregated reminder:
`needsReply` truthy and at least one minute since the message. -/
def collectUnrepliedA (now : Int) (s : StoreA) : List String :=
  s.filterMap (fun p =>
    if p.2.needsReply && decide (now - p.2.timestamp ≥ oneMinuteMs) then some p.1
    else none)

/-- Observable outcome of one app.js sweep trigger: the store after the
tick, the ids covered by the emitted reminder, and the log lines of
interest (only the busy skip line is modelled). -/
structure TickResultA where
  store : StoreA
  emitted : List String
  logLines : List String
deriving DecidableEq

/-- The log line app.js records when a trigger is dropped. -/
def skipLogMsg : String := "前回の未返信チェックが進行中のためスキップします"

/-- app.js cron callback: if the `isCheckingUnreplied` flag is set the
trigger only logs the skip line and returns — no record is read or mutated
and nothing is emitted.  Otherwise the sweep scans the store (read-only in
this variant) and sends one aggregated reminder covering the overdue ids. -/
def cronTickApp (isCheckingUnreplied : Bool) (now : Int) (s : StoreA) : TickResultA :=
  if isCheckingUnreplied then ⟨s, [], [skipLogMsg]⟩
  else ⟨s, collectUnrepliedA now s, []⟩

/-- app.js cleanup predicate: replied, `repliedAt` set, and strictly more
than a day since `repliedAt` (not since the inbound message). -/
def cleanupDeleteA (now : Int) (c : ConvA) : Bool :=
  (!c.needsReply) &&
    (match c.repliedAt with
     | some r => decide (now - r > oneDayMs)
     | none => false)

/-- app.js cleanup sweep. -/
def cleanupA (now : Int) (s : StoreA) : StoreA :=
  s.filter (fun p => !cleanupDeleteA now p.2)

/-! ### part_006: chat records and the unguarded sweep -/

/-- part_006 last message snapshot `{ text, id }`. -/
structure Msg6 where
  text : String
  id : String
deriving DecidableEq

/-- part_006 record: `{ lastMessageFromUser, lastTimestamp, lastMessage,
displayName, sourceType }`. -/
structure Conv6 where
  lastMessageFromUser : Bool
  lastTimestamp : Int
  lastMessage : Msg6
  displayName : String
  sourceType : String
deriving DecidableEq

abbrev Store6 := List (String × Conv6)

/-- Observable outcome of one part_006 sweep trigger. -/
structure TickResult6 where
  store : Store6
  emitted : List String
  logLines : List String
deriving DecidableEq

/-- The chat ids the part_006 minute sweep includes in its reminder. -/
def collectUnreplied6 (now : Int) (s : Store6) : List String :=
  s.filterMap (fun p =>
    if p.2.lastMessageFromUser && decide (now - p.2.lastTimestamp ≥ oneMinuteMs) then
      some p.1
    else none)

/-- part_006 cron callback.  The source consults no busy flag whatsoever, so
the outcome is the same whether or not a previous sweep is still running
(first argument): the sweep always scans the store and emits, and no skip
line is ever logged. -/
def cronTick006 (_previousSweepRunning : Bool) (now : Int) (s : Store6) : TickResult6 :=
  ⟨s, collectUnreplied6 now s, []⟩

/-! ### Concrete records for witness and counterexample theorems -/

/-- A part_004 record already replied, last inbound message at time `0`. -/
def c5rec4 : Conv4 := ⟨some ⟨"old", 0, "m1"⟩, none, false, "Bob", "user", 0, 0⟩

/-- An app.js record still awaiting a reply. -/
def c5recA : ConvA := ⟨"hello", 0, "m2", "Eve", "user", true, none⟩

/-- An app.js record already replied (`repliedAt` set). -/
def c10rec : ConvA := ⟨"hi", 0, "m1", "Bob", "user", false, some 1⟩

/-- A part_005 record with no reminder sent yet, message at time `1000`. -/
def c1rec : Conv5 := ⟨some ⟨"hi", 1000, "m1"⟩, none, true, "Alice", "user", 0, 0, "tok1"⟩

/-- A part_005 record due for its first reminder (message at time `0`). -/
def c3rec : Conv5 := ⟨some ⟨"hello", 0, "m9"⟩, none, true, "Carol", "user", 0, 0, "tokC"⟩

/-- An app.js record one minute old and unreplied. -/
def c4recA : ConvA := ⟨"hey", 0, "m3", "Dan", "user", true, none⟩

/-- A part_006 record whose last message is from the user, one minute old. -/
def c4rec6 : Conv6 := ⟨true, 0, ⟨"hi", "m1"⟩, "Alice", "user"⟩

/-- A part_005 record with reminder bookkeeping already positive. -/
def c6rec : Conv5 := ⟨some ⟨"old", 1, "m0"⟩, none, false, "Dave", "user", 7, 2, "oldTok"⟩

/-- A plain user message event. -/
def c6event : LineEvent := ⟨"u1", "こんにちは", "m5", 500, true, "user", "Dave"⟩

/-- A part_005 record with a set security token. -/
def c8rec : Conv5 := ⟨some ⟨"hi", 0, "m1"⟩, none, true, "Alice", "user", 5, 1, "tok123"⟩

/-- A part_000 record awaiting a reply. -/
def c9rec : Conv0 := ⟨⟨"question", 100, "m1"⟩, none, true, "Zoe", "user"⟩

/-- Trace: a user message, a due reminder sweep, then a global リセット
issued by another user. -/
def c7trace : List Op4 :=
  [.lineEvent ⟨"u1", "こんにちは", "m1", 1000, true, "user", "U"⟩ true 2000 "b0",
   .reminderSweep 10802000,
   .lineEvent ⟨"v1", "リセット", "m2", 10802500, true, "user", "V"⟩ true 10802600 "b1"]

end LineReminderBot

namespace LineReminderBot

theorem getConv_setConv_self {α : Type} (s : List (String × α)) (uid : String) (c : α) :
    getConv (setConv s uid c) uid = some c := by
  induction s with
  | nil => simp [setConv, getConv]
  | cons p rest ih =>
      by_cases h : p.1 = uid
      · simp [setConv, h, getConv]
      · simp [setConv, h, getConv, ih]

theorem getConv_setConv_ne {α : Type} (s : List (String × α)) {uid v : String} (c : α)
    (h : v ≠ uid) : getConv (setConv s uid c) v = getConv s v := by
  have huv : uid ≠ v := Ne.symm h
  induction s with
  | nil => simp [setConv, getConv, huv]
  | cons p rest ih =>
      by_cases hp : p.1 = uid
      · have hpv : p.1 ≠ v := by rw [hp]; exact huv
        simp [setConv, hp, getConv, huv, hpv]
      · simp [setConv, hp, getConv, ih]

theorem mem_setConv {α : Type} {s : List (String × α)} {uid : String} {c : α}
    {q : String × α} (hq : q ∈ setConv s uid c) : q = (uid, c) ∨ q ∈ s := by
  induction s with
  | nil => simpa [setConv] using hq
  | cons p rest ih =>
      by_cases h : p.1 = uid
      · simp [setConv, h] at hq
        rcases hq with hq | hq
        · exact Or.inl hq
        · exact Or.inr (List.mem_cons_of_mem _ hq)
      · simp [setConv, h] at hq
        rcases hq with hq | hq
        · exact Or.inr (by simp [hq])
        · rcases ih hq with hq | hq
          · exact Or.inl hq
          · exact Or.inr (List.mem_cons_of_mem _ hq)

theorem getConv_mem {α : Type} {s : List (String × α)} {uid : String} {c : α}
    (hg : getConv s uid = some c) : (uid, c) ∈ s := by
  induction s with
  | nil => simp [getConv] at hg
  | cons p rest ih =>
      by_cases h : p.1 = uid
      · simp [getConv, h] at hg
        subst hg
        simp [← h]
      · simp [getConv, h] at hg
        exact List.mem_cons_of_mem _ (ih hg)

theorem mem_getConv {α : Type} {s : List (String × α)} {uid : String} {c : α}
    (hnd : keysNodup s) (hm : (uid, c) ∈ s) : getConv s uid = some c := by
  induction s with
  | nil => simp at hm
  | cons p rest ih =>
      rcases List.mem_cons.mp hm with hm | hm
      · subst hm
        simp [getConv]
      · have hkey : p.1 ≠ uid := by
          intro h
          have : uid ∈ rest.map Prod.fst := by
            exact List.mem_map.mpr ⟨(uid, c), hm, rfl⟩
          have hnd' := (List.nodup_cons.mp hnd).1
          rw [h] at hnd'
          exact hnd' this
        have hrest : keysNodup rest := (List.nodup_cons.mp hnd).2
        simp [getConv, hkey, ih hrest hm]

theorem keysNodup_tail {α : Type} {p : String × α} {rest : List (String × α)}
    (h : keysNodup (p :: rest)) : keysNodup rest :=
  (List.nodup_cons.mp h).2

theorem getConv_none_of_not_mem {α : Type} {s : List (String × α)} {uid : String}
    (h : uid ∉ s.map Prod.fst) : getConv s uid = none := by
  induction s with
  | nil => simp [getConv]
  | cons p rest ih =>
      have h1 : p.1 ≠ uid := by
        intro hh
        exact h (by rw [List.map_cons, hh]; exact List.mem_cons_self _ _)
      have h2 : uid ∉ rest.map Prod.fst := by
        intro hh
        exact h (by rw [List.map_cons]; exact List.mem_cons_of_mem _ hh)
      simp [getConv, h1, ih h2]

theorem getConv_isSome_setConv {α : Type} (s : List (String × α)) (uid v : String) (c : α)
    (h : (getConv s v).isSome) : (getConv (setConv s uid c) v).isSome := by
  by_cases hv : v = uid
  · subst hv
    simp [getConv_setConv_self]
  · rw [getConv_setConv_ne s c hv]
    exact h

theorem getConv_filter_none {α : Type} (f : String × α → Bool)
    {s : List (String × α)} {uid : String} (h : getConv s uid = none) :
    getConv (s.filter f) uid = none := by
  induction s with
  | nil => simp [getConv]
  | cons p rest ih =>
      by_cases hp : p.1 = uid
      · simp [getConv, hp] at h
      · simp only [getConv, hp, if_false, if_neg hp] at h
        by_cases hf : f p
        · simp [List.filter_cons, hf, getConv, hp, ih h]
        · simp [List.filter_cons, hf, ih h]

theorem getConv_filter_of_nodup {α : Type} (f : String × α → Bool)
    {s : List (String × α)} {uid : String} {c : α}
    (hnd : keysNodup s) (hget : getConv s uid = some c) :
    getConv (s.filter f) uid = if f (uid, c) then some c else none := by
  induction s with
  | nil => simp [getConv] at hget
  | cons p rest ih =>
      by_cases hp : p.1 = uid
      · have hc : p.2 = c := by
          simp [getConv, hp] at hget
          exact hget
        have hpc : p = (uid, c) := by
          cases p
          simp_all
        have hnone : getConv rest uid = none := by
          apply getConv_none_of_not_mem
          have := (List.nodup_cons.mp hnd).1
          rw [hp] at this
          exact this
        by_cases hf : f p
        · rw [hpc] at hf
          simp [List.filter_cons, hpc, hf, getConv]
        · rw [hpc] at hf
          simp only [List.filter_cons, hpc, hf, if_false]
          simp only [Bool.not_eq_true] at hf
          simp [hf, getConv_filter_none f hnone]
      · simp only [getConv, if_neg hp] at hget
        have ih' := ih (keysNodup_tail hnd) hget
        by_cases hf : f p
        · simp [List.filter_cons, hf, getConv, hp, ih']
        · simp [List.filter_cons, hf, ih']

/-- C2: if the outbound platform send throws, the conversation record is left
exactly as it was — `needsReply` stays `true`, no `botReply` is written, the
reminder bookkeeping is untouched — the sweep's due selection is therefore
unchanged, and part_000's `sendReplyAndRecord` reports the failure by
returning `false` (part_004's `replyAndRecord` likewise skips its whole
update block). -/
theorem c2_failed_send_preserves_record (uid replyText : String) (now m : Int)
    (botId : String) (s0 : Store0) (s4 : Store4) :
    sendReplyAndRecord0 uid replyText false now botId s0 = (s0, false) ∧
    replyAndRecord4 uid replyText false now botId s4 = s4 ∧
    collectDue4 m (replyAndRecord4 uid replyText false now botId s4) = collectDue4 m s4 :=
  ⟨rfl, rfl, rfl⟩

/-- C5 counterexample: at exactly the 24-hour boundary (`now −
lastInboundMessage.timestamp = retentionWindow`) the claim says the record is
evicted (`elapsed ≥ window`, `needsReply = false`), but the part_004 cleanup
sweep uses a strict `>` and retains it unchanged. -/
theorem c5_counterexample :
    c5rec4.needsReply = false ∧
    (∃ mm, c5rec4.userMessage = some mm ∧ (86400000 : Int) - mm.timestamp ≥ oneDayMs) ∧
    cleanup4 86400000 [("u1", c5rec4)] = [("u1", c5rec4)] := by
  refine ⟨rfl, ⟨⟨"old", 0, "m1"⟩, rfl, by decide⟩, by decide⟩

/-- C5 (amended): the part_004/part_005 retention sweep evicts a record iff
`needsReply = false`, a last inbound message is present, and strictly more
than 24 hours have elapsed since its timestamp; a record with
`needsReply = true` is never evicted.  The app.js variant is the same except
that it measures the strict 24-hour bound from `repliedAt` (and never evicts
a record without `repliedAt`). -/
theorem c5_amended_eviction_iff (now : Int) :
    (∀ (s : Store4) (uid : String) (c : Conv4), keysNodup s → getConv s uid = some c →
      ((getConv (cleanup4 now s) uid = none ↔
         c.needsReply = false ∧ ∃ mm, c.userMessage = some mm ∧ now - mm.timestamp > oneDayMs) ∧
       (c.needsReply = true → getConv (cleanup4 now s) uid = some c))) ∧
    (∀ (s : StoreA) (uid : String) (c : ConvA), keysNodup s → getConv s uid = some c →
      ((getConv (cleanupA now s) uid = none ↔
         c.needsReply = false ∧ ∃ r, c.repliedAt = some r ∧ now - r > oneDayMs) ∧
       (c.needsReply = true → getConv (cleanupA now s) uid = some c))) := by
  constructor
  · intro s uid c hnd hget
    have h := getConv_filter_of_nodup (fun p => !cleanupDelete4 now p.2) hnd hget
    rw [cleanup4, h]
    constructor
    · by_cases hd : cleanupDelete4 now c = true
      · simp only [hd, Bool.not_true, if_false]
        simp only [cleanupDelete4, Bool.and_eq_true, Bool.not_eq_true'] at hd
        constructor
        · intro _
          refine ⟨hd.1, ?_⟩
          rcases hm : c.userMessage with _ | mm
          · rw [hm] at hd
            simp at hd
          · rw [hm] at hd
            refine ⟨mm, rfl, by simpa using hd.2⟩
        · intro _
          rfl
      · simp only [Bool.not_eq_true] at hd
        simp only [hd, Bool.not_false, if_true]
        simp only [cleanupDelete4, Bool.and_eq_false_iff, Bool.not_eq_false'] at hd
        constructor
        · intro hc
          exact absurd hc (by simp)
        · rintro ⟨hn, mm, hm, ht⟩
          rcases hd with hd | hd
          · rw [hd] at hn
            exact absurd hn (by simp)
          · rw [hm] at hd
            simp at hd
            omega
    · intro hn
      have hd : cleanupDelete4 now c = false := by
        simp [cleanupDelete4, hn]
      simp [hd]
  · intro s uid c hnd hget
    have h := getConv_filter_of_nodup (fun p => !cleanupDeleteA now p.2) hnd hget
    rw [cleanupA, h]
    constructor
    · by_cases hd : cleanupDeleteA now c = true
      · simp only [hd, Bool.not_true, if_false]
        simp only [cleanupDeleteA, Bool.and_eq_true, Bool.not_eq_true'] at hd
        constructor
        · intro _
          refine ⟨hd.1, ?_⟩
          rcases hm : c.repliedAt with _ | r
          · rw [hm] at hd
            simp at hd
          · rw [hm] at hd
            refine ⟨r, rfl, by simpa using hd.2⟩
        · intro _
          rfl
      · simp only [Bool.not_eq_true] at hd
        simp only [hd, Bool.not_false, if_true]
        simp only [cleanupDeleteA, Bool.and_eq_false_iff, Bool.not_eq_false'] at hd
        constructor
        · intro hc
          exact absurd hc (by simp)
        · rintro ⟨hn, r, hm, ht⟩
          rcases hd with hd | hd
          · rw [hd] at hn
            exact absurd hn (by simp)
          · rw [hm] at hd
            simp at hd
            omega
    · intro hn
      have hd : cleanupDeleteA now c = false := by
        simp [cleanupDeleteA, hn]
      simp [hd]

/-- C5 witness for the amended statement: one millisecond past the boundary
the replied record is evicted, and a `needsReply` record survives the app.js
sweep. -/
theorem c5_amended_witness :
    getConv (cleanup4 86400001 [("u1", c5rec4)]) "u1" = none ∧
    getConv (cleanupA 86400001 [("w1", c5recA)]) "w1" = some c5recA := by
  constructor
  · exact ((c5_amended_eviction_iff 86400001).1 [("u1", c5rec4)] "u1" c5rec4
      (by decide) (by decide)).1.mpr ⟨rfl, ⟨"old", 0, "m1"⟩, rfl, by decide⟩
  · exact ((c5_amended_eviction_iff 86400001).2 [("w1", c5recA)] "w1" c5recA
      (by decide) (by decide)).2 rfl

/-- C10: app.js `markAsReplied` succeeds iff the record exists with
`needsReply = true`; on failure nothing is mutated, and the API endpoint
answers an existing-but-already-replied conversation with exactly the same
404 not-found response as an unknown conversation id. -/
theorem c10_mark_replied_iff (uid : String) (now : Int) (s : StoreA) :
    ((markAsRepliedA uid now s).2 = true ↔
      ∃ c, getConv s uid = some c ∧ c.needsReply = true) ∧
    ((markAsRepliedA uid now s).2 = false → (markAsRepliedA uid now s).1 = s) ∧
    (uid ≠ "" → ∀ c, getConv s uid = some c → c.needsReply = false →
      apiMarkAsRepliedA uid now s = (s, 404, notFoundMsgA uid)) ∧
    (uid ≠ "" → getConv s uid = none →
      apiMarkAsRepliedA uid now s = (s, 404, notFoundMsgA uid)) := by
  refine ⟨?_, ?_, ?_, ?_⟩
  · rcases h : getConv s uid with _ | c
    · simp [markAsRepliedA, h]
    · by_cases hn : c.needsReply = true
      · simp [markAsRepliedA, h, hn]
      · simp only [Bool.not_eq_true] at hn
        simp [markAsRepliedA, h, hn]
  · rcases h : getConv s uid with _ | c
    · simp [markAsRepliedA, h]
    · by_cases hn : c.needsReply = true
      · simp [markAsRepliedA, h, hn]
      · simp only [Bool.not_eq_true] at hn
        simp [markAsRepliedA, h, hn]
  · intro hu c h hn
    simp [apiMarkAsRepliedA, hu, markAsRepliedA, h, hn]
  · intro hu h
    simp [apiMarkAsRepliedA, hu, markAsRepliedA, h]

theorem entryFor5_userId {now : Int} {uid : String} {c : Conv5} {e : Entry}
    (h : entryFor5 now uid c = some e) : e.userId = uid := by
  unfold entryFor5 at h
  split at h
  · split at h
    · split at h
      · split at h
        · injection h with h2
          subst h2
          rfl
        · exact Option.noConfusion h
      · exact Option.noConfusion h
    · exact Option.noConfusion h
  · exact Option.noConfusion h

theorem entryFor5_eq_of_eligible {now : Int} {uid : String} {c : Conv5} {m : MsgSnap}
    (hneeds : c.needsReply = true) (hm : c.userMessage = some m)
    (hg : c.sourceType ≠ "group") (hr : c.sourceType ≠ "room") :
    entryFor5 now uid c =
      if reminderDue now m.timestamp c.lastReminderTime then
        some ⟨uid, c.displayName, m.text, m.timestamp, now - m.timestamp,
          c.reminderCount + 1⟩
      else none := by
  simp [entryFor5, hneeds, hm, hg, hr]

theorem reminderDue_eq_true_iff (now msgTs lastRem : Int) :
    reminderDue now msgTs lastRem = true ↔
      ((lastRem = 0 ∧ now - msgTs ≥ threeHoursMs) ∨
       (lastRem ≠ 0 ∧ now - lastRem ≥ threeHoursMs)) := by
  simp only [reminderDue, Bool.or_eq_true, Bool.and_eq_true, decide_eq_true_eq]
  tauto

/-- C1: among the records the part_005 reminder sweep examines (`needsReply`,
inbound message present, not a group/room), a record's id appears in the
sweep's due list exactly when the spec's due condition holds with
`firstReminderDelay = reminderInterval = 3` hours and the unset
`lastReminderAt` represented as `0`. -/
theorem c1_sweep_due_iff (now : Int) (s : Store5) (uid : String) (c : Conv5)
    (hnd : keysNodup s) (hget : getConv s uid = some c)
    (hneeds : c.needsReply = true) (hmsg : c.userMessage.isSome = true)
    (hg : c.sourceType ≠ "group") (hr : c.sourceType ≠ "room") :
    (∃ e ∈ collectDue5 now s, e.userId = uid) ↔
      dueSpec threeHoursMs threeHoursMs now c := by
  rcases hm : c.userMessage with _ | m
  · rw [hm] at hmsg
    simp at hmsg
  constructor
  · rintro ⟨e, he, heq⟩
    rcases List.mem_filterMap.mp he with ⟨p, hp, hfp⟩
    have huid : p.1 = uid := by
      rw [← entryFor5_userId hfp, heq]
    have hmem : (uid, p.2) ∈ s := by
      rw [← huid]
      exact hp
    have hc : p.2 = c := by
      have h2 := mem_getConv hnd hmem
      rw [hget] at h2
      exact (Option.some.inj h2).symm
    rw [huid, hc, entryFor5_eq_of_eligible hneeds hm hg hr] at hfp
    by_cases hd : reminderDue now m.timestamp c.lastReminderTime = true
    · exact ⟨m, hm, (reminderDue_eq_true_iff _ _ _).mp hd⟩
    · simp only [Bool.not_eq_true] at hd
      rw [hd] at hfp
      simp at hfp
  · rintro ⟨m2, hm2eq, hd⟩
    rw [hm] at hm2eq
    injection hm2eq with hm2
    subst hm2
    have hdue : reminderDue now m.timestamp c.lastReminderTime = true :=
      (reminderDue_eq_true_iff _ _ _).mpr hd
    refine ⟨⟨uid, c.displayName, m.text, m.timestamp, now - m.timestamp,
      c.reminderCount + 1⟩, ?_, rfl⟩
    apply List.mem_filterMap.mpr
    refine ⟨(uid, c), getConv_mem hget, ?_⟩
    rw [entryFor5_eq_of_eligible hneeds hm hg hr, if_pos hdue]

/-- C1 witness: a record whose message is just over three hours old, with no
prior reminder, is selected, matching the spec-side due condition. -/
theorem c1_witness :
    (∃ e ∈ collectDue5 10801000 [("u1", c1rec)], e.userId = "u1") ↔
      dueSpec threeHoursMs threeHoursMs 10801000 c1rec :=
  c1_sweep_due_iff 10801000 [("u1", c1rec)] "u1" c1rec (by decide) (by decide)
    (by decide) (by decide) (by decide) (by decide)

theorem emitAndUpdate5_attempts (now : Int) (ok : String → Bool) (ft : String → String) :
    ∀ (es : List Entry) (s : Store5),
      (emitAndUpdate5 now ok ft es s).2 = es.map (fun e => (e.userId, ok e.userId)) := by
  intro es
  induction es with
  | nil => intro s; simp [emitAndUpdate5]
  | cons e rest ih => intro s; simp [emitAndUpdate5, ih]

theorem getConv_tokenWriteBack5_ne (ft : String → String) (uid v : String)
    (s : Store5) (h : v ≠ uid) :
    getConv (tokenWriteBack5 ft uid s) v = getConv s v := by
  unfold tokenWriteBack5
  rcases getConv s uid with _ | c
  · rfl
  · exact getConv_setConv_ne s _ h

theorem getConv_reminderUpdate5_ne (now : Int) (e : Entry) (v : String)
    (s : Store5) (h : v ≠ e.userId) :
    getConv (reminderUpdate5 now e s) v = getConv s v := by
  unfold reminderUpdate5
  rcases getConv s e.userId with _ | c
  · rfl
  · exact getConv_setConv_ne s _ h

theorem getConv_emitAndUpdate5_ne (now : Int) (ok : String → Bool) (ft : String → String) :
    ∀ (es : List Entry) (s : Store5) (v : String), (∀ e ∈ es, e.userId ≠ v) →
      getConv (emitAndUpdate5 now ok ft es s).1 v = getConv s v := by
  intro es
  induction es with
  | nil => intro s v _; simp [emitAndUpdate5]
  | cons e rest ih =>
      intro s v hv
      have hev : v ≠ e.userId := fun h => hv e (List.mem_cons_self _ _) h.symm
      simp only [emitAndUpdate5]
      rw [ih _ v (fun e' he' => hv e' (List.mem_cons_of_mem _ he')),
        getConv_reminderUpdate5_ne _ _ _ _ hev, getConv_tokenWriteBack5_ne _ _ _ _ hev]

theorem getConv_isSome_of_mem {α : Type} {s : List (String × α)} {uid : String} {c : α}
    (h : (uid, c) ∈ s) : (getConv s uid).isSome := by
  induction s with
  | nil => simp at h
  | cons p rest ih =>
      rcases List.mem_cons.mp h with h | h
      · subst h
        simp [getConv]
      · by_cases hp : p.1 = uid
        · simp [getConv, hp]
        · simp [getConv, hp, ih h]

theorem getConv_isSome_tokenWriteBack5 (ft : String → String) (uid v : String)
    (s : Store5) (h : (getConv s v).isSome) :
    (getConv (tokenWriteBack5 ft uid s) v).isSome := by
  unfold tokenWriteBack5
  rcases getConv s uid with _ | c
  · exact h
  · exact getConv_isSome_setConv s _ _ _ h

theorem getConv_isSome_reminderUpdate5 (now : Int) (e : Entry) (v : String)
    (s : Store5) (h : (getConv s v).isSome) :
    (getConv (reminderUpdate5 now e s) v).isSome := by
  unfold reminderUpdate5
  rcases getConv s e.userId with _ | c
  · exact h
  · exact getConv_isSome_setConv s _ _ _ h

theorem emitAndUpdate5_updates (now : Int) (ok : String → Bool) (ft : String → String) :
    ∀ (es : List Entry) (s : Store5),
      (es.map (fun e => e.userId)).Nodup →
      (∀ e ∈ es, (getConv s e.userId).isSome) →
      ∀ e ∈ es, ∃ c', getConv (emitAndUpdate5 now ok ft es s).1 e.userId = some c' ∧
        c'.lastReminderTime = now ∧ c'.reminderCount = e.reminderCount := by
  intro es
  induction es with
  | nil => intro s _ _ e he; simp at he
  | cons e rest ih =>
      intro s hnd hex e' he'
      rw [List.map_cons] at hnd
      have hnd2 := List.nodup_cons.mp hnd
      have hs1 : (getConv (tokenWriteBack5 ft e.userId s) e.userId).isSome :=
        getConv_isSome_tokenWriteBack5 ft e.userId e.userId s
          (hex e (List.mem_cons_self _ _))
      rcases hc1 : getConv (tokenWriteBack5 ft e.userId s) e.userId with _ | c1
      · rw [hc1] at hs1
        simp at hs1
      have hs2get : getConv (reminderUpdate5 now e (tokenWriteBack5 ft e.userId s)) e.userId =
          some { c1 with lastReminderTime := now, reminderCount := e.reminderCount } := by
        unfold reminderUpdate5
        rw [hc1]
        exact getConv_setConv_self _ _ _
      rcases List.mem_cons.mp he' with h | h
      · subst h
        have hneq : ∀ e2 ∈ rest, e2.userId ≠ e'.userId := by
          intro e2 he2 hne
          exact hnd2.1 (List.mem_map.mpr ⟨e2, he2, hne⟩)
        refine ⟨{ c1 with lastReminderTime := now, reminderCount := e'.reminderCount },
          ?_, rfl, rfl⟩
        simp only [emitAndUpdate5]
        rw [getConv_emitAndUpdate5_ne now ok ft rest _ e'.userId hneq, hs2get]
      · have hres := ih (reminderUpdate5 now e (tokenWriteBack5 ft e.userId s)) hnd2.2
          (by
            intro e2 he2
            exact getConv_isSome_reminderUpdate5 _ _ _ _
              (getConv_isSome_tokenWriteBack5 _ _ _ _ (hex e2 (List.mem_cons_of_mem _ he2))))
          e' h
        simpa [emitAndUpdate5] using hres

theorem collectDue5_userId_mem_keys {now : Int} {s : Store5} {e : Entry}
    (h : e ∈ collectDue5 now s) : e.userId ∈ s.map Prod.fst := by
  rcases List.mem_filterMap.mp h with ⟨p, hp, hfp⟩
  rw [entryFor5_userId hfp]
  exact List.mem_map.mpr ⟨p, hp, rfl⟩

theorem collectDue5_uids_nodup {now : Int} {s : Store5} (hnd : keysNodup s) :
    ((collectDue5 now s).map (fun e => e.userId)).Nodup := by
  induction s with
  | nil => simp [collectDue5]
  | cons p rest ih =>
      have hnd' := List.nodup_cons.mp hnd
      rcases hf : entryFor5 now p.1 p.2 with _ | e
      · simpa [collectDue5, List.filterMap_cons, hf] using ih hnd'.2
      · simp only [collectDue5, List.filterMap_cons, hf, List.map_cons]
        refine List.nodup_cons.mpr ⟨?_, by simpa [collectDue5] using ih hnd'.2⟩
        intro hmem
        rcases List.mem_map.mp hmem with ⟨e2, he2, heq⟩
        have : e2.userId ∈ rest.map Prod.fst := collectDue5_userId_mem_keys he2
        rw [heq, entryFor5_userId hf] at this
        exact hnd'.1 this

theorem getConv_isSome_of_collectDue5 {now : Int} {s : Store5} {e : Entry}
    (h : e ∈ collectDue5 now s) : (getConv s e.userId).isSome := by
  rcases List.mem_filterMap.mp h with ⟨p, hp, hfp⟩
  rw [entryFor5_userId hfp]
  exact getConv_isSome_of_mem (by
    have : (p.1, p.2) = p := rfl
    rw [this]
    exact hp)

/-- C3 counterexample: a sweep over one due record whose notification post
fails (`axios.post` rejects, swallowed inside
`sendSlackInteractiveNotification`) still sets `lastReminderTime = now` and
`reminderCount = 1`, so the bookkeeping is updated although the emission did
not succeed and the reminder will not be retried until a full further
interval has passed. -/
theorem c3_counterexample :
    (sweep5 10800000 (fun _ => false) (fun _ => "fresh") [("u1", c3rec)]).2 =
      [("u1", false)] ∧
    (getConv (sweep5 10800000 (fun _ => false) (fun _ => "fresh") [("u1", c3rec)]).1 "u1").map
      (fun c => (c.lastReminderTime, c.reminderCount)) = some (10800000, 1) := by
  constructor
  · decide
  · decide

/-- C3 (amended): the part_005 sweep attempts exactly one notification per
due record — a failure for one record never prevents the later ones, since
the notification helper catches and only logs the error — and it performs
the `lastReminderTime`/`reminderCount` update for every due record
regardless of whether its emission succeeded (the failed reminder is
therefore not retried until a full further interval elapses). -/
theorem c3_sweep_failure_isolation (now : Int) (notifyOk : String → Bool)
    (ft : String → String) (s : Store5) (hnd : keysNodup s) :
    (sweep5 now notifyOk ft s).2 =
      (collectDue5 now s).map (fun e => (e.userId, notifyOk e.userId)) ∧
    ∀ e ∈ collectDue5 now s,
      ∃ c', getConv (sweep5 now notifyOk ft s).1 e.userId = some c' ∧
        c'.lastReminderTime = now ∧ c'.reminderCount = e.reminderCount := by
  constructor
  · exact emitAndUpdate5_attempts now notifyOk ft _ s
  · exact emitAndUpdate5_updates now notifyOk ft (collectDue5 now s) s
      (collectDue5_uids_nodup hnd)
      (fun e he => getConv_isSome_of_collectDue5 he)

/-- C3 witness for the amended statement: with two due records where the
first notification fails and the second succeeds, both attempts happen in
order and both records get their bookkeeping updated. -/
theorem c3_amended_witness :
    (sweep5 10800000 (fun u => u = "u2") (fun _ => "fresh")
        [("u1", c3rec), ("u2", c3rec)]).2 = [("u1", false), ("u2", true)] ∧
    ∃ c', getConv (sweep5 10800000 (fun u => u = "u2") (fun _ => "fresh")
        [("u1", c3rec), ("u2", c3rec)]).1 "u2" = some c' ∧
      c'.lastReminderTime = 10800000 ∧ c'.reminderCount = 1 := by
  have h := c3_sweep_failure_isolation 10800000 (fun u => u = "u2") (fun _ => "fresh")
    [("u1", c3rec), ("u2", c3rec)] (by decide)
  refine ⟨by simpa using h.1, ?_⟩
  have h2 := h.2 ⟨"u2", "Carol", "hello", 0, 10800000, 1⟩ (by decide)
  simpa using h2

theorem mem_collectUnrepliedA (now : Int) (s : StoreA) (uid : String)
    (hnd : keysNodup s) :
    uid ∈ collectUnrepliedA now s ↔
      ∃ c, getConv s uid = some c ∧ c.needsReply = true ∧
        now - c.timestamp ≥ oneMinuteMs := by
  constructor
  · intro h
    rcases List.mem_filterMap.mp h with ⟨p, hp, hfp⟩
    by_cases hcond : (p.2.needsReply && decide (now - p.2.timestamp ≥ oneMinuteMs)) = true
    · rw [if_pos hcond] at hfp
      injection hfp with hfp
      subst hfp
      rcases Bool.and_eq_true_iff.mp hcond with ⟨h1, h2⟩
      exact ⟨p.2, mem_getConv hnd (by
        have : (p.1, p.2) = p := rfl
        rw [this]
        exact hp), h1, of_decide_eq_true h2⟩
    · rw [if_neg hcond] at hfp
      exact Option.noConfusion hfp
  · rintro ⟨c, hget, hn, ht⟩
    apply List.mem_filterMap.mpr
    refine ⟨(uid, c), getConv_mem hget, ?_⟩
    rw [if_pos (by simp [hn, ht])]

/-- C4 counterexample: the part_006 cron sweep has no busy guard at all —
triggered while a previous sweep is still running it behaves exactly as when
idle: it performs the full sweep, emitting a reminder for the overdue chat,
and records no skip log line, so the claim that such a trigger does no sweep
work and is logged fails for this variant. -/
theorem c4_counterexample :
    (cronTick006 true 60000 [("chat1", c4rec6)]).emitted = ["chat1"] ∧
    (cronTick006 true 60000 [("chat1", c4rec6)]).logLines = [] ∧
    cronTick006 true 60000 [("chat1", c4rec6)] =
      cronTick006 false 60000 [("chat1", c4rec6)] := by
  refine ⟨by decide, rfl, rfl⟩

/-- C4 (amended): in the variants that guard the sweep with the
`isCheckingUnreplied` flag (app.js and part_000/002–005), a timer trigger
that fires while the flag is set performs no sweep work — the store is
untouched, nothing is emitted, the trigger is not queued — and exactly the
skip log line is recorded; with the flag clear the sweep runs and covers
precisely the `needsReply` records at least one minute old.  The part_006
variant has no such guard and its trigger sweeps unconditionally. -/
theorem c4_guarded_trigger_drops (now : Int) (s : StoreA) (uid : String)
    (hnd : keysNodup s) :
    (cronTickApp true now s).store = s ∧
    (cronTickApp true now s).emitted = [] ∧
    (cronTickApp true now s).logLines = [skipLogMsg] ∧
    ((uid ∈ (cronTickApp false now s).emitted) ↔
      ∃ c, getConv s uid = some c ∧ c.needsReply = true ∧
        now - c.timestamp ≥ oneMinuteMs) := by
  refine ⟨rfl, rfl, rfl, ?_⟩
  exact mem_collectUnrepliedA now s uid hnd

/-- C4 witness for the amended statement: a busy trigger drops with only the
skip line while an idle trigger over the same store emits the reminder. -/
theorem c4_amended_witness :
    (cronTickApp true 60000 [("u1", c4recA)]).store = [("u1", c4recA)] ∧
    (cronTickApp true 60000 [("u1", c4recA)]).emitted = [] ∧
    (cronTickApp true 60000 [("u1", c4recA)]).logLines = [skipLogMsg] ∧
    "u1" ∈ (cronTickApp false 60000 [("u1", c4recA)]).emitted := by
  have h := c4_guarded_trigger_drops 60000 [("u1", c4recA)] "u1" (by decide)
  exact ⟨h.1, h.2.1, h.2.2.1, h.2.2.2.mpr ⟨c4recA, by simp [getConv], rfl, by decide⟩⟩

/-- C6: every `UserMessage` event that part_005 applies to a record (user
turn, not one of the command strings, not filtered as group/room chatter)
leaves the record with the new inbound snapshot, `needsReply = true`,
`reminderCount = 0`, `lastReminderTime` unset, and the `securityToken`
rotated to the freshly generated value — different from the previous token
whenever the fresh draw differs, which holds for the old token with
overwhelming probability. -/
theorem c6_user_message_resets (e : LineEvent) (ft : String) (s : Store5)
    (hfu : e.isFromUser = true) (hcmd : e.text ∉ groupCommands5)
    (hg : e.sourceType ≠ "group") (hr : e.sourceType ≠ "room") :
    ∃ c', getConv (handleLineEvent5 e ft s) e.userId = some c' ∧
      c'.userMessage = some ⟨e.text, e.timestamp, e.messageId⟩ ∧
      c'.needsReply = true ∧ c'.reminderCount = 0 ∧ c'.lastReminderTime = 0 ∧
      c'.securityToken = ft ∧
      (∀ c₀, getConv s e.userId = some c₀ → ft ≠ c₀.securityToken →
        c'.securityToken ≠ c₀.securityToken) := by
  have hst : e.text ≠ "ステータス" := by
    intro h
    exact hcmd (by rw [h]; decide)
  have hst2 : e.text ≠ "status" := by
    intro h
    exact hcmd (by rw [h]; decide)
  have hdb : e.text ≠ "デバッグログ" := by
    intro h
    exact hcmd (by rw [h]; decide)
  have hdb2 : e.text ≠ "debuglog" := by
    intro h
    exact hcmd (by rw [h]; decide)
  have hgr : ¬((e.sourceType = "group" ∨ e.sourceType = "room") ∧ e.text ∉ groupCommands5) := by
    rintro ⟨h, _⟩
    rcases h with h | h
    · exact hg h
    · exact hr h
  rw [handleLineEvent5, if_neg hgr,
    if_neg (by rintro ⟨_, h | h⟩ <;> [exact hst h; exact hst2 h]),
    if_neg (by rintro ⟨_, h | h⟩ <;> [exact hdb h; exact hdb2 h]),
    if_pos (by simpa using hfu)]
  rcases hc0 : getConv s e.userId with _ | c0
  · refine ⟨⟨some ⟨e.text, e.timestamp, e.messageId⟩, none, true, e.displayName,
      e.sourceType, 0, 0, ft⟩, ?_, rfl, rfl, rfl, rfl, rfl, ?_⟩
    · rw [userMessageUpdate5, hc0]
      exact getConv_setConv_self _ _ _
    · intro c₀ hcontra
      exact absurd hcontra (by simp)
  · refine ⟨{ c0 with
      userMessage := some ⟨e.text, e.timestamp, e.messageId⟩,
      needsReply := true, lastReminderTime := 0, reminderCount := 0,
      securityToken := ft }, ?_, rfl, rfl, rfl, rfl, rfl, ?_⟩
    · rw [userMessageUpdate5, hc0]
      exact getConv_setConv_self _ _ _
    · intro c₀ hc₀ hne
      obtain rfl : c0 = c₀ := Option.some.inj hc₀
      exact hne

/-- C6 witness: a plain message applied over a record that had
`reminderCount = 2`, `lastReminderTime = 7` and token `oldTok` resets all
bookkeeping and rotates the token. -/
theorem c6_witness :
    ∃ c', getConv (handleLineEvent5 c6event "newTok" [("u1", c6rec)]) c6event.userId =
        some c' ∧
      c'.userMessage = some ⟨c6event.text, c6event.timestamp, c6event.messageId⟩ ∧
      c'.needsReply = true ∧ c'.reminderCount = 0 ∧ c'.lastReminderTime = 0 ∧
      c'.securityToken = "newTok" ∧
      (∀ c₀, getConv [("u1", c6rec)] c6event.userId = some c₀ →
        "newTok" ≠ c₀.securityToken → c'.securityToken ≠ c₀.securityToken) :=
  c6_user_message_resets c6event "newTok" [("u1", c6rec)] rfl (by decide)
    (by decide) (by decide)

/-- C8: the part_005 web confirmation action mutates a record iff the record
exists and the presented token is exactly (`!==` comparison) the stored
`securityToken` — in that case it clears `needsReply` and the reminder
bookkeeping without any platform send (the handler renders a page and calls
no messaging API) — and on a missing record or any mismatched token,
including a stale pre-rotation token, it mutates nothing and reports an
error.  The hypotheses record two invariants of all reachable stores: user
ids and stored tokens are nonempty strings. -/
theorem c8_confirmation_exact_token (u t : String) (s : Store5)
    (hu : u ≠ "")
    (htok : ∀ c, getConv s u = some c → c.securityToken ≠ "") :
    ((markAsRepliedWeb5 u t s).2 = ConfirmResult.success ↔
      ∃ c, getConv s u = some c ∧ c.securityToken = t) ∧
    ((markAsRepliedWeb5 u t s).2 ≠ ConfirmResult.success →
      (markAsRepliedWeb5 u t s).1 = s) ∧
    (∀ c, getConv s u = some c → c.securityToken = t →
      getConv (markAsRepliedWeb5 u t s).1 u =
        some { c with
          needsReply := false, lastReminderTime := 0,
          reminderCount := 0 }) := by
  by_cases ht : t = ""
  · have hguard : u = "" ∨ t = "" := Or.inr ht
    refine ⟨?_, ?_, ?_⟩
    · rw [markAsRepliedWeb5, if_pos hguard]
      constructor
      · intro h
        exact absurd h (by simp)
      · rintro ⟨c, hc, hctok⟩
        exact absurd (hctok.trans ht) (htok c hc)
    · intro _
      rw [markAsRepliedWeb5, if_pos hguard]
    · intro c hc hctok
      exact absurd (hctok.trans ht) (htok c hc)
  · have hguard : ¬(u = "" ∨ t = "") := by
      rintro (h | h)
      · exact hu h
      · exact ht h
    rcases hc : getConv s u with _ | c
    · refine ⟨?_, ?_, ?_⟩
      · rw [markAsRepliedWeb5, if_neg hguard, hc]
        constructor
        · intro h
          exact absurd h (by simp)
        · rintro ⟨c, hcc, _⟩
          exact Option.noConfusion hcc
      · intro _
        rw [markAsRepliedWeb5, if_neg hguard, hc]
      · intro c hcc
        exact absurd hcc (by simp)
    · by_cases htm : c.securityToken = t
      · have hred : markAsRepliedWeb5 u t s =
            (setConv s u { c with
              needsReply := false, lastReminderTime := 0, reminderCount := 0 },
             ConfirmResult.success) := by
          simp only [markAsRepliedWeb5, if_neg hguard, hc]
          rw [if_neg (show ¬(c.securityToken ≠ t) from fun hh => hh htm)]
        refine ⟨?_, ?_, ?_⟩
        · constructor
          · intro _
            exact ⟨c, rfl, htm⟩
          · intro _
            rw [hred]
        · intro h
          exact absurd (show (markAsRepliedWeb5 u t s).2 = ConfirmResult.success by
            rw [hred]) h
        · intro c2 hc2 _
          obtain rfl : c = c2 := Option.some.inj hc2
          rw [hred]
          exact getConv_setConv_self _ _ _
      · have hred : markAsRepliedWeb5 u t s = (s, ConfirmResult.tokenMismatch) := by
          simp only [markAsRepliedWeb5, if_neg hguard, hc]
          rw [if_pos (show c.securityToken ≠ t from htm)]
        refine ⟨?_, ?_, ?_⟩
        · rw [hred]
          constructor
          · intro h
            exact absurd h (by simp)
          · rintro ⟨c2, hc2, hctok⟩
            obtain rfl : c = c2 := Option.some.inj hc2
            exact absurd hctok htm
        · intro _
          rw [hred]
        · intro c2 hc2 hctok
          obtain rfl : c = c2 := Option.some.inj hc2
          exact absurd hctok htm

/-- C8 witness: with the stored token the action succeeds and clears the
bookkeeping; the same instance's iff also certifies that only that exact
token can succeed. -/
theorem c8_witness :
    ((markAsRepliedWeb5 "u1" "tok123" [("u1", c8rec)]).2 = ConfirmResult.success ↔
      ∃ c, getConv [("u1", c8rec)] "u1" = some c ∧ c.securityToken = "tok123") ∧
    ((markAsRepliedWeb5 "u1" "tok123" [("u1", c8rec)]).2 ≠ ConfirmResult.success →
      (markAsRepliedWeb5 "u1" "tok123" [("u1", c8rec)]).1 = [("u1", c8rec)]) ∧
    (∀ c, getConv [("u1", c8rec)] "u1" = some c → c.securityToken = "tok123" →
      getConv (markAsRepliedWeb5 "u1" "tok123" [("u1", c8rec)]).1 "u1" =
        some { c with
          needsReply := false, lastReminderTime := 0,
          reminderCount := 0 }) :=
  c8_confirmation_exact_token "u1" "tok123" [("u1", c8rec)] (by decide)
    (by
      intro c hc
      simp [getConv] at hc
      subst hc
      decide)

/-- C9 counterexample: in part_000 the `ステータス` command routes its reply
through `sendReplyAndRecord`, so a successful status reply flips the issuing
conversation's `needsReply` from `true` to `false` — STATUS is not
read-only. -/
theorem c9_counterexample :
    (getConv (handleStatus0 "u1" true 200 "b1" [("u1", c9rec)]).1 "u1").map
      (fun c => c.needsReply) = some false ∧
    c9rec.needsReply = true := by
  constructor
  · decide
  · rfl

/-- C9 (amended): the part_000 STATUS command reports the status text built
from the issuing record, and leaves every other conversation record
unchanged; but because the reply is sent through `sendReplyAndRecord`, a
successful send records the status text as `botReply` and sets the issuing
record's `needsReply` to `false` (a failed send changes nothing and reports
`false`).  The app.js variant replies without recording and truly mutates
nothing. -/
theorem c9_status_records_reply (uid : String) (now : Int) (botId : String)
    (s : Store0) :
    ((handleStatus0 uid false now botId s).1 = s ∧
      (handleStatus0 uid false now botId s).2 = false) ∧
    (∀ c, getConv s uid = some c →
      getConv (handleStatus0 uid true now botId s).1 uid =
        some { c with
          botReply := some ⟨statusMessage0 uid s, now, botId⟩,
          needsReply := false }) ∧
    (∀ v, v ≠ uid → getConv (handleStatus0 uid true now botId s).1 v = getConv s v) ∧
    (getConv s uid = none → (handleStatus0 uid true now botId s).1 = s) := by
  refine ⟨⟨rfl, rfl⟩, ?_, ?_, ?_⟩
  · intro c hc
    rw [handleStatus0, sendReplyAndRecord0, if_pos rfl, hc]
    exact getConv_setConv_self _ _ _
  · intro v hv
    rcases hc : getConv s uid with _ | c
    · rw [handleStatus0, sendReplyAndRecord0, if_pos rfl, hc]
    · rw [handleStatus0, sendReplyAndRecord0, if_pos rfl, hc]
      exact getConv_setConv_ne s _ hv
  · intro hc
    rw [handleStatus0, sendReplyAndRecord0, if_pos rfl, hc]

/-- C9 witness for the amended statement: a successful status reply marks the
issuing record replied and stores the status text; a failed send leaves the
store as it was. -/
theorem c9_amended_witness :
    getConv (handleStatus0 "u1" true 200 "b1" [("u1", c9rec)]).1 "u1" =
      some { c9rec with
        botReply := some ⟨statusMessage0 "u1" [("u1", c9rec)], 200, "b1"⟩,
        needsReply := false } ∧
    (handleStatus0 "u1" false 200 "b1" [("u1", c9rec)]).1 = [("u1", c9rec)] := by
  have h := c9_status_records_reply "u1" 200 "b1" [("u1", c9rec)]
  exact ⟨h.2.1 c9rec (by simp [getConv]), h.1.1⟩

theorem storeInv4_setConv (s : Store4) (uid : String) (c : Conv4)
    (hs : storeInv4 s) (hc : 0 < c.reminderCount → c.lastReminderTime ≠ 0) :
    storeInv4 (setConv s uid c) := by
  intro p hp
  rcases mem_setConv hp with h | h
  · rw [h]
    exact hc
  · exact hs p h

theorem storeInv4_replyAndRecord4 (uid replyText : String) (sendOk : Bool)
    (now : Int) (botId : String) (s : Store4) (hs : storeInv4 s) :
    storeInv4 (replyAndRecord4 uid replyText sendOk now botId s) := by
  unfold replyAndRecord4
  split
  · split
    · apply storeInv4_setConv _ _ _ hs
      intro h
      simp at h
    · exact hs
  · exact hs

theorem storeInv4_resetAll4 (s : Store4) (hs : storeInv4 s) :
    storeInv4 (resetAll4 s) := by
  intro p hp
  rcases List.mem_map.mp hp with ⟨q, hq, hqe⟩
  obtain rfl := hqe
  intro hcnt
  exact hs q hq hcnt

theorem storeInv4_clearNeedsReply4 (uid : String) (s : Store4) (hs : storeInv4 s) :
    storeInv4 (clearNeedsReply4 uid s) := by
  unfold clearNeedsReply4
  split
  case h_1 c heq =>
    apply storeInv4_setConv _ _ _ hs
    intro hcnt
    exact hs (uid, c) (getConv_mem heq) hcnt
  case h_2 => exact hs

theorem storeInv4_userMessageUpdate4 (e : LineEvent) (s : Store4) (hs : storeInv4 s) :
    storeInv4 (userMessageUpdate4 e s) := by
  unfold userMessageUpdate4
  split
  · apply storeInv4_setConv _ _ _ hs
    intro h
    simp at h
  · apply storeInv4_setConv _ _ _ hs
    intro h
    simp at h

theorem storeInv4_handleLineEvent4 (e : LineEvent) (sendOk : Bool) (now : Int)
    (botId : String) (s : Store4) (hs : storeInv4 s) :
    storeInv4 (handleLineEvent4 e sendOk now botId s) := by
  unfold handleLineEvent4
  split
  · exact hs
  · split
    · split
      · exact storeInv4_replyAndRecord4 _ _ _ _ _ _ (storeInv4_resetAll4 s hs)
      · split
        · exact storeInv4_replyAndRecord4 _ _ _ _ _ _
            (storeInv4_clearNeedsReply4 _ _ hs)
        · split
          · exact storeInv4_replyAndRecord4 _ _ _ _ _ _ hs
          · split
            · exact storeInv4_replyAndRecord4 _ _ _ _ _ _ hs
            · exact storeInv4_userMessageUpdate4 _ _ hs
    · exact hs

theorem storeInv4_apiSendReply4 (uid msg : String) (sendOk : Bool) (now : Int)
    (botId : String) (s : Store4) (hs : storeInv4 s) :
    storeInv4 (apiSendReply4 uid msg sendOk now botId s) := by
  unfold apiSendReply4
  split
  · exact hs
  · split
    · split
      · apply storeInv4_setConv _ _ _ hs
        intro h
        simp at h
      · exact hs
    · exact hs

theorem storeInv4_apiMarkAsReplied4 (uid : String) (s : Store4) (hs : storeInv4 s) :
    storeInv4 (apiMarkAsReplied4 uid s) := by
  unfold apiMarkAsReplied4
  split
  · exact hs
  · split
    · apply storeInv4_setConv _ _ _ hs
      intro h
      simp at h
    · exact hs

theorem storeInv4_webMarkAsReplied4 (uid : String) (s : Store4) (hs : storeInv4 s) :
    storeInv4 (webMarkAsReplied4 uid s) := by
  unfold webMarkAsReplied4
  split
  · exact hs
  · split
    · apply storeInv4_setConv _ _ _ hs
      intro h
      simp at h
    · exact hs

theorem storeInv4_sweepApply4 (now : Int) (hpos : 0 < now) :
    ∀ (entries : List Entry) (s : Store4), storeInv4 s →
      storeInv4 (sweepApply4 now entries s) := by
  intro entries
  induction entries with
  | nil => intro s hs; exact hs
  | cons e rest ih =>
      intro s hs
      simp only [sweepApply4]
      apply ih
      split
      · apply storeInv4_setConv _ _ _ hs
        intro _
        show now ≠ 0
        omega
      · exact hs

theorem storeInv4_cleanup4 (now : Int) (s : Store4) (hs : storeInv4 s) :
    storeInv4 (cleanup4 now s) := by
  intro p hp
  exact hs p (List.mem_of_mem_filter hp)

theorem storeInv4_applyOp4 (op : Op4) (s : Store4) (hwf : op4WF op = true)
    (hs : storeInv4 s) : storeInv4 (applyOp4 op s) := by
  cases op with
  | lineEvent e sendOk now botId => exact storeInv4_handleLineEvent4 e sendOk now botId s hs
  | apiSendReply uid msg sendOk now botId =>
      exact storeInv4_apiSendReply4 uid msg sendOk now botId s hs
  | apiMarkReplied uid => exact storeInv4_apiMarkAsReplied4 uid s hs
  | webMarkReplied uid => exact storeInv4_webMarkAsReplied4 uid s hs
  | reminderSweep now =>
      have hpos : 0 < now := by simpa [op4WF] using hwf
      exact storeInv4_sweepApply4 now hpos _ s hs
  | cleanupSweep now => exact storeInv4_cleanup4 now s hs

/-- C7 counterexample: from the empty store, a user message from `u1`, a due
reminder sweep, and then the global `リセット` command issued by `v1` reach a
state where `u1`'s record has `reminderCount = 1` but `needsReply = false`
(with `lastReminderAt` still set) — `リセット` clears `needsReply` on every
record without clearing the reminder bookkeeping, so the claimed invariant
`reminderCount > 0 → lastReminderAt present ∧ needsReply = true` fails on a
reachable state. -/
theorem c7_counterexample :
    (getConv (applyOps4 c7trace []) "u1").map
      (fun c => (c.reminderCount, c.needsReply, c.lastReminderTime)) =
      some (1, false, 10802000) := by
  decide

/-- C7 (amended): in every state reachable from the empty store by part_004
operations (LINE events including the operator commands and global リセット,
the send-reply/mark-replied endpoints, and both sweeps, with sweep times
taken from the clock and hence positive), every record satisfies
`reminderCount > 0 → lastReminderTime ≠ 0`.  The `needsReply` half of the
claimed invariant is the part refuted by the counterexample. -/
theorem c7_amended_reminder_invariant (ops : List Op4)
    (h : ∀ op ∈ ops, op4WF op = true) :
    storeInv4 (applyOps4 ops []) := by
  have main : ∀ (ops2 : List Op4) (s : Store4), (∀ op ∈ ops2, op4WF op = true) →
      storeInv4 s → storeInv4 (applyOps4 ops2 s) := by
    intro ops2
    induction ops2 with
    | nil => intro s _ hs; exact hs
    | cons op rest ih =>
        intro s hwf hs
        have h1 : op4WF op = true := hwf op (List.mem_cons_self _ _)
        have h2 : ∀ o ∈ rest, op4WF o = true :=
          fun o ho => hwf o (List.mem_cons_of_mem _ ho)
        simpa [applyOps4] using ih (applyOp4 op s) h2 (storeInv4_applyOp4 op s h1 hs)
  exact main ops [] h (by intro p hp; simp at hp)

/-- C7 witness for the amended statement: the invariant holds along the very
trace used by the counterexample. -/
theorem c7_amended_witness : storeInv4 (applyOps4 c7trace []) :=
  c7_amended_reminder_invariant c7trace (by decide)

/-- C10 witness: a record whose `needsReply` is already `false` gets the same
404 answer as a completely unknown id, with the store untouched. -/
theorem c10_witness :
    apiMarkAsRepliedA "u1" 5 [("u1", c10rec)] = ([("u1", c10rec)], 404, notFoundMsgA "u1") ∧
    apiMarkAsRepliedA "zz" 5 [("u1", c10rec)] = ([("u1", c10rec)], 404, notFoundMsgA "zz") := by
  constructor
  · exact (c10_mark_replied_iff "u1" 5 [("u1", c10rec)]).2.2.1 (by decide) c10rec
      (by decide) rfl
  · exact (c10_mark_replied_iff "zz" 5 [("u1", c10rec)]).2.2.2 (by decide) (by decide)

end LineReminderBot
